import Mathlib

/-!
Verification of the media-site browser logic (`src/media-site/assets/app.js`):
a shallow embedding of the remote listing client with backoff (`ghFetch`),
the file classifier (`isMediaFile`/`isImage`/`isVideo`), the media resolver
inside `showMediaForPath`, the two caches, and the gallery/search view state,
together with theorems settling the specified properties.
-/

namespace MediaSite

/-- Entry type as returned by the listing API: `dir` or `file`. -/
inductive EntryType
  | dir
  | file
deriving DecidableEq, Repr

/-- A directory entry `{name, path, type}` as produced by the listing API
(GitHub contents endpoint); identity is the `path`. -/
structure Entry where
  name : String
  path : String
  type : EntryType
deriving DecidableEq, Repr

/-- The function `rawUrl(path)` (app.js:57-59) with the fixed
owner/repo/ref constants (app.js:3-5) substituted. -/
def rawUrl (path : String) : String :=
  "https://raw.githubusercontent.com/DavidSciMeow/DavidSciMeow/main/" ++ path

/-- JS `toLowerCase()` restricted to its ASCII action (all extensions and
names compared here are ASCII): lowercase every character. -/
def jsToLower (s : String) : String :=
  ⟨s.data.map Char.toLower⟩

/-- Character-level splitter behind `jsSplitDot`: split at every occurrence
of `c`, keeping empty segments, as JS `split` does. -/
def splitOnChar (c : Char) : List Char → List (List Char)
  | [] => [[]]
  | x :: xs =>
    let rest := splitOnChar c xs
    if x = c then [] :: rest
    else
      match rest with
      | [] => [[x]]
      | seg :: segs => (x :: seg) :: segs

/-- JS `name.split('.')`: always non-empty; a dot-free string yields itself
as the only segment. -/
def jsSplitDot (name : String) : List String :=
  (splitOnChar '.' name.data).map (fun l => ⟨l⟩)

/-- The extension expression `name.split('.').pop().toLowerCase()` used by
each classifier (app.js:46, 50, 54).  JS `split('.')` on a dot-free string
returns the whole string as its only element, so `pop()` never fails. -/
def extOf (name : String) : String :=
  jsToLower ((jsSplitDot name).getLastD "")

/-- The function `isMediaFile(name)` (app.js:45-48). -/
def isMediaFile (name : String) : Bool :=
  ["png", "jpg", "jpeg", "webp", "gif", "mp4", "webm", "ogv"].contains (extOf name)

/-- The function `isImage(name)` (app.js:49-52). -/
def isImage (name : String) : Bool :=
  ["png", "jpg", "jpeg", "webp", "gif"].contains (extOf name)

/-- The function `isVideo(name)` (app.js:53-56). -/
def isVideo (name : String) : Bool :=
  ["mp4", "webm", "ogv"].contains (extOf name)

/-- Classification result the spec calls `kindOf`. -/
inductive Kind
  | image
  | video
  | other
deriving DecidableEq, Repr

/-- The spec's `kindOf(name)`, packaged from the source classifiers
(app.js:49-56); media items get their `'video'`/`'image'` tag from
`isVideo` (app.js:164, 192), everything else is `other`. -/
def kindOf (name : String) : Kind :=
  if isImage name then Kind.image else if isVideo name then Kind.video else Kind.other

/-- A gallery media item (app.js:174-180): `type` holds the string
`'video'` or `'image'`; `src` and `poster` are raw-content URLs. -/
structure MediaItem where
  name : String
  path : String
  type : String
  src : String
  poster : Option String
deriving DecidableEq, Repr

/-- JS `s.includes(pat)`: `pat` occurs in `s` as a contiguous substring. -/
def strIncludes (s pat : String) : Bool :=
  (List.range (s.data.length + 1)).any (fun i => pat.data.isPrefixOf (s.data.drop i))

/-- Gallery view state: the search base `allVisibleMedia` (app.js:19) and
the list of cards currently rendered into the gallery element. -/
structure ViewState where
  allVisibleMedia : List MediaItem
  rendered : List MediaItem
deriving DecidableEq, Repr

/-- The function `renderGallery(list)` (app.js:215-257): it assigns
`allVisibleMedia = list` (app.js:216) and rebuilds the gallery cards. -/
def renderGallery (st : ViewState) (list : List MediaItem) : ViewState :=
  { st with allVisibleMedia := list, rendered := list }

/-- JS `query.trim()`: strip leading and trailing whitespace. -/
def jsTrim (s : String) : String :=
  ⟨((s.data.dropWhile Char.isWhitespace).reverse.dropWhile Char.isWhitespace).reverse⟩

/-- The `globalSearch` input handler (app.js:371-376), the spec's
`applyQuery(query)`: trim and lowercase the query; on an empty query render
`allVisibleMedia`, else render the items whose lowercased name contains it. -/
def applyQuery (st : ViewState) (query : String) : ViewState :=
  let q := jsToLower (jsTrim query)
  if q = "" then renderGallery st st.allVisibleMedia
  else
    renderGallery st
      (st.allVisibleMedia.filter (fun item => strIncludes (jsToLower item.name) q))

/-- One completed `showMediaForPath` resolution: the path it was issued for
paired with the media list it computed.  The continuation of each resolution
ends by calling `renderGallery(media)` unconditionally (app.js:212) — the
active selection is never compared against the completing path — so the view
is the fold of `renderGallery` over the completions in completion order. -/
def runCompletions (st : ViewState) (completions : List (String × List MediaItem)) : ViewState :=
  completions.foldl (fun s c => renderGallery s c.2) st

/-- Response of one listing request (app.js:27-40): HTTP 200 with a JSON
listing, 403/429 (throttled), 404, or any other status with a body text. -/
inductive GhResp
  | ok (listing : List Entry)
  | throttled
  | notFound
  | other (status : Nat) (body : String)
deriving DecidableEq, Repr

/-- Value produced by `ghFetch`: the JSON listing, or the thrown
`Error('GitHub API: rate limited or unavailable')` (app.js:42). -/
inductive GhResult
  | success (listing : List Entry)
  | unavailable
deriving DecidableEq, Repr

/-- Outcome of a `ghFetch` call: its result, the number of requests it
sent, and the `console.error` entries it logged (status and body text). -/
structure GhOutcome where
  result : GhResult
  requests : Nat
  log : List (Nat × String)
deriving DecidableEq, Repr

/-- The `while (attempt < 5)` loop of `ghFetch` (app.js:25-41): `resp i` is
the response to the `(i+1)`-st request; `attempt` counts requests already
sent and `remaining` stands for `5 - attempt`, so the loop body runs while
`remaining > 0` exactly as the source runs it while `attempt < 5`. -/
def ghFetchGo (resp : Nat → GhResp) : Nat → Nat → GhOutcome
  | 0, attempt => ⟨GhResult.unavailable, attempt, []⟩
  | remaining + 1, attempt =>
    match resp attempt with
    | GhResp.ok l => ⟨GhResult.success l, attempt + 1, []⟩
    | GhResp.throttled => ghFetchGo resp remaining (attempt + 1)
    | GhResp.notFound => ⟨GhResult.success [], attempt + 1, []⟩
    | GhResp.other s b => ⟨GhResult.success [], attempt + 1, [(s, b)]⟩

/-- The function `ghFetch` (app.js:22-43): at most five attempts, starting
from `attempt = 0`. -/
def ghFetch (resp : Nat → GhResp) : GhOutcome :=
  ghFetchGo resp 5 0

/-- The base-name expression `it.name.replace(/\.[^/.]+$/, '')`
(app.js:166): strips a final dot-extension when the part after the last dot
is non-empty and free of `/` (the regex requires one or more characters,
none of them `.` or `/`, after the dot, anchored at the end). -/
def stripExt (name : String) : String :=
  let parts := jsSplitDot name
  let lastPart := parts.getLastD ""
  if parts.length ≥ 2 ∧ lastPart ≠ "" ∧ lastPart.data.contains '/' = false then
    ⟨name.data.take (name.data.length - (lastPart.data.length + 1))⟩
  else name

/-- Helper for JS `String.replace` with a plain-string pattern: remove the
first occurrence of `pat`, scanning left to right. -/
def removeFirstAux (pat : List Char) : List Char → List Char
  | [] => []
  | c :: cs =>
    if pat.isPrefixOf (c :: cs) then (c :: cs).drop pat.length
    else c :: removeFirstAux pat cs

/-- The expression `it.path.replace(it.name, '')` (app.js:167): JS
`replace` with a string pattern removes the first occurrence only, and
leaves the string unchanged when the pattern does not occur. -/
def removeFirst (s pat : String) : String :=
  ⟨removeFirstAux pat.data s.data⟩

/-- The four poster candidate paths (app.js:165-168), in preference order
jpg, jpeg, webp, png. -/
def posterCandidates (it : Entry) : List String :=
  ["jpg", "jpeg", "webp", "png"].map
    (fun ext => removeFirst it.path it.name ++ stripExt it.name ++ "." ++ ext)

/-- The poster detection loop (app.js:169-173): the first candidate `p` for
which `items.find(x => x.path === p)` is truthy becomes the poster (the
matching entry's `type` is not inspected). -/
def findPoster (items : List Entry) : List String → Option String
  | [] => none
  | p :: rest =>
    if items.any (fun x => x.path == p) then some (rawUrl p) else findPoster items rest

/-- One direct media item pushed by the first loop (app.js:163-181). -/
def mkDirectItem (items : List Entry) (it : Entry) : MediaItem :=
  { name := it.name
    path := it.path
    type := if isVideo it.name then "video" else "image"
    src := rawUrl it.path
    poster := findPoster items (posterCandidates it) }

/-- The first loop of `showMediaForPath` (app.js:162-182): the direct file
children classified as media, in listing order. -/
def directItems (items : List Entry) : List MediaItem :=
  items.filterMap (fun it =>
    if it.type == EntryType.file && isMediaFile it.name then
      some (mkDirectItem items it)
    else none)

/-- One media item found one level down (app.js:189-195): `poster` is
always `null` at this depth. -/
def mkSubItem (s : Entry) : MediaItem :=
  { name := s.name
    path := s.path
    type := if isVideo s.name then "video" else "image"
    src := rawUrl s.path
    poster := none }

/-- The second loop of `showMediaForPath` (app.js:184-199): for each direct
subdirectory, in listing order, its direct media children; `net` maps a
path to the listing `ghFetch` returns for it. -/
def subItems (net : String → List Entry) (items : List Entry) : List MediaItem :=
  items.flatMap (fun it =>
    if it.type == EntryType.dir then
      (net it.path).filterMap (fun s =>
        if s.type == EntryType.file && isMediaFile s.name then some (mkSubItem s)
        else none)
    else [])

/-- Media accumulated for a path before the fallback step
(app.js:159-199): direct items first, then the shallow subfolder items. -/
def resolveMediaItems (net : String → List Entry) (path : String) : List MediaItem :=
  directItems (net path) ++ subItems net (net path)

/-- The spec's `resolveMedia` (app.js:159-209): when the accumulation is
empty the static manifest `assets/media.json` is pushed verbatim
(app.js:202-209); `manifest = none` models a failed manifest load, whose
exception is swallowed (app.js:206-208), yielding the empty set. -/
def resolveMedia (net : String → List Entry) (manifest : Option (List MediaItem))
    (path : String) : List MediaItem :=
  let media := resolveMediaItems net path
  if media.isEmpty then manifest.getD [] else media

/-- Application state: the listing cache `cache` (app.js:17), the media
cache `mediaCache` (app.js:18), the gallery view state, and the log of
paths requested over the network via `ghFetch`. -/
structure AppState where
  cache : List (String × List Entry)
  mediaCache : List (String × List MediaItem)
  view : ViewState
  netLog : List String
deriving DecidableEq, Repr

/-- The function `showMediaForPath(path)` (app.js:150-213) at the level of
one completed resolution: the media cache is consulted first (app.js:154);
on a miss every listing is fetched directly with `ghFetch` — `netLog`
records the requested paths: the target path (app.js:159), then each direct
subdirectory in listing order (app.js:186) — the result is cached under the
path and rendered.  The listing cache `cache` is neither read nor written
here; only `loadAndRenderDir` (app.js:121-130) uses it. -/
def showMediaForPath (net : String → List Entry) (manifest : Option (List MediaItem))
    (st : AppState) (path : String) : AppState :=
  match List.lookup path st.mediaCache with
  | some m => { st with view := renderGallery st.view m }
  | none =>
    let items := net path
    let media := resolveMedia net manifest path
    { st with
      netLog := st.netLog ++ path ::
        ((items.filter (fun i => i.type == EntryType.dir)).map (fun i => i.path)),
      mediaCache := (path, media) :: st.mediaCache,
      view := renderGallery st.view media }

/-- Concrete media items used in the collected examples. -/
def catItem : MediaItem := ⟨"cat.png", "cat.png", "image", rawUrl "cat.png", none⟩

def dogItem : MediaItem := ⟨"dog.mp4", "dog.mp4", "video", rawUrl "dog.mp4", none⟩

/-- A network with a single image `cat.png` at the root. -/
def netCat : String → List Entry := fun p =>
  if p = "" then [⟨"cat.png", "cat.png", EntryType.file⟩] else []

/-- The item the resolver builds for `cat.png` under `netCat`: an image
whose poster is its own raw URL. -/
def catPosterItem : MediaItem :=
  ⟨"cat.png", "cat.png", "image", rawUrl "cat.png", some (rawUrl "cat.png")⟩

/-- A network with a video `clip.mp4` and a directory entry whose path is
`clip.jpg` at the root. -/
def netClip : String → List Entry := fun p =>
  if p = "" then
    [⟨"clip.mp4", "clip.mp4", EntryType.file⟩, ⟨"clip.jpg", "clip.jpg", EntryType.dir⟩]
  else []

/-- The item the resolver builds for `clip.mp4` under `netClip`: the
directory entry `clip.jpg` supplies the poster. -/
def clipDirPosterItem : MediaItem :=
  ⟨"clip.mp4", "clip.mp4", "video", rawUrl "clip.mp4", some (rawUrl "clip.jpg")⟩

/-- A two-level tree: root holds `a.png` and directory `sub`; `sub` holds
`b.png` and directory `deep`; `deep` holds `c.png`. -/
def netTree : String → List Entry := fun p =>
  if p = "" then [⟨"a.png", "a.png", EntryType.file⟩, ⟨"sub", "sub", EntryType.dir⟩]
  else if p = "sub" then
    [⟨"b.png", "sub/b.png", EntryType.file⟩, ⟨"deep", "sub/deep", EntryType.dir⟩]
  else if p = "sub/deep" then [⟨"c.png", "sub/deep/c.png", EntryType.file⟩]
  else []

def aPngItem : MediaItem := ⟨"a.png", "a.png", "image", rawUrl "a.png", some (rawUrl "a.png")⟩

def bPngItem : MediaItem := ⟨"b.png", "sub/b.png", "image", rawUrl "sub/b.png", none⟩

/-- A network with no media at all: a text file at the root and a
subdirectory holding another text file. -/
def netNoMedia : String → List Entry := fun p =>
  if p = "" then
    [⟨"readme.md", "readme.md", EntryType.file⟩, ⟨"docs", "docs", EntryType.dir⟩]
  else if p = "docs" then [⟨"notes.txt", "docs/notes.txt", EntryType.file⟩]
  else []

/-- Two manifest entries for the fallback example. -/
def demoItem1 : MediaItem := ⟨"demo.png", "assets/demo.png", "image", rawUrl "assets/demo.png", none⟩

def demoItem2 : MediaItem := ⟨"demo.mp4", "assets/demo.mp4", "video", rawUrl "assets/demo.mp4", none⟩

/-- App state whose listing cache already holds a root listing (`cat.png`)
while the media cache is empty. -/
def stCached : AppState :=
  ⟨[("", [⟨"cat.png", "cat.png", EntryType.file⟩])], [], ⟨[], []⟩, []⟩

/-- A network whose root listing (`dog.mp4`) differs from the listing
stored in `stCached`. -/
def netDog : String → List Entry := fun p =>
  if p = "" then [⟨"dog.mp4", "dog.mp4", EntryType.file⟩] else []

/-- Response sequence: three throttled responses, then success. -/
def respThrice : Nat → GhResp :=
  fun i => if i < 3 then GhResp.throttled else GhResp.ok [⟨"a.png", "a.png", EntryType.file⟩]

/-- An extension classed as image is never classed as video: the two
extension lists share no element. -/
theorem image_ext_not_video_ext {e : String}
    (h : e ∈ (["png", "jpg", "jpeg", "webp", "gif"] : List String)) :
    e ∉ (["mp4", "webm", "ogv"] : List String) := by
  fin_cases h <;> decide

/-- The poster loop returns the raw URL of the first candidate whose path
occurs among the entries. -/
theorem findPoster_eq_find (items : List Entry) (cands : List String) :
    findPoster items cands
      = (cands.find? (fun p => items.any (fun x => x.path == p))).map rawUrl := by
  induction cands with
  | nil => rfl
  | cons p rest ih =>
    by_cases h : items.any (fun x => x.path == p)
    · simp [findPoster, List.find?_cons, h]
    · simp [findPoster, List.find?_cons, h, ih]

/-- A flatMap whose body is guarded by a boolean test equals the flatMap
over the filtered list. -/
theorem flatMap_if_filter {α β : Type} (l : List α) (p : α → Bool) (f : α → List β) :
    (l.flatMap fun a => if p a then f a else []) = (l.filter p).flatMap f := by
  induction l with
  | nil => rfl
  | cons a t ih => by_cases h : p a <;> simp [List.filter_cons, h, ih]

/-- C9: `kindOf` is total and case-insensitive on the extension — the
substring after the last dot, lowercased (`extOf`) — returning `image` on
{png, jpg, jpeg, webp, gif}, `video` on {mp4, webm, ogv} and `other`
otherwise; in particular `kindOf "A.PNG" = image`,
`kindOf "clip.MP4" = video` and `kindOf "readme" = other`. -/
theorem kindOf_total_case_insensitive :
    (∀ name : String,
        (kindOf name = Kind.image ↔
          extOf name ∈ (["png", "jpg", "jpeg", "webp", "gif"] : List String)) ∧
        (kindOf name = Kind.video ↔
          extOf name ∈ (["mp4", "webm", "ogv"] : List String)) ∧
        (kindOf name = Kind.other ↔
          extOf name ∉
            (["png", "jpg", "jpeg", "webp", "gif", "mp4", "webm", "ogv"] : List String))) ∧
    kindOf "A.PNG" = Kind.image ∧ kindOf "clip.MP4" = Kind.video ∧
    kindOf "readme" = Kind.other := by
  refine ⟨fun name => ?_, by decide, by decide, by decide⟩
  have himg : isImage name = true ↔
      extOf name ∈ (["png", "jpg", "jpeg", "webp", "gif"] : List String) := by
    simp [isImage]
  have hvid : isVideo name = true ↔
      extOf name ∈ (["mp4", "webm", "ogv"] : List String) := by
    simp [isVideo]
  have hsplit :
      (extOf name ∈
          (["png", "jpg", "jpeg", "webp", "gif", "mp4", "webm", "ogv"] : List String)) ↔
        extOf name ∈ (["png", "jpg", "jpeg", "webp", "gif"] : List String) ∨
          extOf name ∈ (["mp4", "webm", "ogv"] : List String) := by
    rw [show (["png", "jpg", "jpeg", "webp", "gif", "mp4", "webm", "ogv"] : List String)
        = ["png", "jpg", "jpeg", "webp", "gif"] ++ ["mp4", "webm", "ogv"] from rfl]
    exact List.mem_append
  by_cases hI : extOf name ∈ (["png", "jpg", "jpeg", "webp", "gif"] : List String)
  · have hV := image_ext_not_video_ext hI
    simp [kindOf, himg, hvid, hsplit, hI, hV]
  · by_cases hV : extOf name ∈ (["mp4", "webm", "ogv"] : List String)
    · simp [kindOf, himg, hvid, hsplit, hI, hV]
    · simp [kindOf, himg, hvid, hsplit, hI, hV]

/-- Witness for C9, the image clause of the classification at `x.gif`. -/
theorem kindOf_total_case_insensitive_witness :
    kindOf "x.gif" = Kind.image ↔
      extOf "x.gif" ∈ (["png", "jpg", "jpeg", "webp", "gif"] : List String) :=
  (kindOf_total_case_insensitive.1 "x.gif").1

/-- C2 (the code at the failing input): with base `[cat.png, dog.mp4]`,
`applyQuery "do"` renders exactly `[dog.mp4]` — but `renderGallery`
overwrites the search base `allVisibleMedia` with the filtered list
(app.js:216), so the subsequent `applyQuery ""` renders `[dog.mp4]` again
instead of restoring both items. -/
theorem applyQuery_empty_does_not_restore_base :
    (applyQuery ⟨[catItem, dogItem], [catItem, dogItem]⟩ "do").rendered = [dogItem] ∧
    (applyQuery ⟨[catItem, dogItem], [catItem, dogItem]⟩ "CAT").rendered = [catItem] ∧
    (applyQuery ⟨[catItem, dogItem], [catItem, dogItem]⟩ "do").allVisibleMedia
      ≠ [catItem, dogItem] ∧
    (applyQuery (applyQuery ⟨[catItem, dogItem], [catItem, dogItem]⟩ "do") "").rendered
      = [dogItem] := by decide

/-- C1 (counterexample): resolution for path `p1` is requested first and
computes `[catItem]`; resolution for `p2` is requested before `p1`
completes and computes `[dogItem]`; `p2` completes first and `p1` last.
The gallery and the search base then show `p1`'s result, not `p2`'s. -/
theorem stale_resolution_overwrites_newer :
    (runCompletions ⟨[], []⟩ [("p2", [dogItem]), ("p1", [catItem])]).rendered = [catItem] ∧
    (runCompletions ⟨[], []⟩ [("p2", [dogItem]), ("p1", [catItem])]).allVisibleMedia
      = [catItem] ∧
    [catItem] ≠ [dogItem] := by decide

/-- C1 (amended): `showMediaForPath` has no stale-response guard, so the
displayed gallery and the search base always equal the media list of the
most recently completed resolution — whichever path it was issued for. -/
theorem last_completed_resolution_wins (st : ViewState)
    (cs : List (String × List MediaItem)) (c : String × List MediaItem) :
    (runCompletions st (cs ++ [c])).rendered = c.2 ∧
    (runCompletions st (cs ++ [c])).allVisibleMedia = c.2 := by
  unfold runCompletions
  rw [List.foldl_append]
  exact ⟨rfl, rfl⟩

/-- C3 (counterexample): resolving a listing holding only the image
`cat.png` produces an image item whose poster is set — to the image's own
raw URL, because `cat.png` itself is the fourth poster candidate — so
`posterUrl` is not restricted to video items. -/
theorem poster_set_on_image_item :
    resolveMediaItems netCat "" = [catPosterItem] ∧
    catPosterItem.type = "image" ∧ catPosterItem.poster ≠ none := by decide

/-- C3 (amended): for every direct media item the resolver builds — image
or video alike — `poster` equals the raw URL of the first candidate (base
name plus jpg, jpeg, webp, png, in that order) whose path some entry of the
listing carries, and is unset exactly when no candidate path occurs. -/
theorem poster_is_first_matching_candidate (items : List Entry) (it : Entry) :
    (mkDirectItem items it).poster
      = ((posterCandidates it).find? (fun p => items.any (fun x => x.path == p))).map rawUrl :=
  findPoster_eq_find items (posterCandidates it)

/-- C10: the poster loop compares only entry paths — retyping every entry
preserves its result — and concretely the directory entry `clip.jpg`
becomes the poster of the sibling video `clip.mp4`. -/
theorem poster_check_ignores_entry_type :
    (∀ (items : List Entry) (cands : List String) (retype : Entry → Entry),
        (∀ e, (retype e).path = e.path) →
        findPoster (items.map retype) cands = findPoster items cands) ∧
    resolveMediaItems netClip "" = [clipDirPosterItem] ∧
    clipDirPosterItem.poster = some (rawUrl "clip.jpg") := by
  refine ⟨?_, by decide, by decide⟩
  intro items cands retype hpath
  induction cands with
  | nil => rfl
  | cons p rest ih =>
    have hany : (items.map retype).any (fun x => x.path == p)
        = items.any (fun x => x.path == p) := by
      rw [List.any_map]
      congr 1
      funext x
      rw [Function.comp_apply, hpath]
    simp [findPoster, hany, ih]

/-- Witness for C10: retyping the single entry to a directory leaves the
poster search unchanged. -/
theorem poster_check_ignores_entry_type_witness :
    findPoster (([⟨"clip.mp4", "clip.mp4", EntryType.file⟩] : List Entry).map
        (fun e : Entry => (⟨e.name, e.path, EntryType.dir⟩ : Entry))) ["clip.jpg"]
      = findPoster [⟨"clip.mp4", "clip.mp4", EntryType.file⟩] ["clip.jpg"] :=
  poster_check_ignores_entry_type.1 _ _ _ (fun _ => rfl)

/-- C5: three throttled responses followed by a success make `ghFetch` send
exactly four requests and return the final listing unmodified; five
consecutive throttled responses make it send exactly five requests and
throw (`unavailable`), with nothing logged. -/
theorem ghFetch_backoff_retry :
    (∀ (resp : Nat → GhResp) (l : List Entry),
        resp 0 = GhResp.throttled → resp 1 = GhResp.throttled →
        resp 2 = GhResp.throttled → resp 3 = GhResp.ok l →
        ghFetch resp = ⟨GhResult.success l, 4, []⟩) ∧
    (∀ resp : Nat → GhResp, (∀ i, i < 5 → resp i = GhResp.throttled) →
        ghFetch resp = ⟨GhResult.unavailable, 5, []⟩) := by
  constructor
  · intro resp l h0 h1 h2 h3
    simp [ghFetch, ghFetchGo, h0, h1, h2, h3]
  · intro resp h
    simp [ghFetch, ghFetchGo, h 0 (by omega), h 1 (by omega), h 2 (by omega),
      h 3 (by omega), h 4 (by omega)]

/-- Witness for C5 at concrete response sequences. -/
theorem ghFetch_backoff_retry_witness :
    ghFetch respThrice
      = ⟨GhResult.success [⟨"a.png", "a.png", EntryType.file⟩], 4, []⟩ ∧
    ghFetch (fun _ => GhResp.throttled) = ⟨GhResult.unavailable, 5, []⟩ :=
  ⟨ghFetch_backoff_retry.1 respThrice _ rfl rfl rfl rfl,
   ghFetch_backoff_retry.2 (fun _ => GhResp.throttled) (fun _ _ => rfl)⟩

/-- C6: whenever an attempt remains, a not-found response makes the fetch
loop return the empty listing with nothing logged, and any other
non-success, non-throttled response makes it log the status with the body
text and return the empty listing — neither propagates an error. -/
theorem ghFetch_notFound_and_other_give_empty :
    (∀ (resp : Nat → GhResp) (remaining attempt : Nat),
        resp attempt = GhResp.notFound →
        ghFetchGo resp (remaining + 1) attempt
          = ⟨GhResult.success [], attempt + 1, []⟩) ∧
    (∀ (resp : Nat → GhResp) (remaining attempt status : Nat) (body : String),
        resp attempt = GhResp.other status body →
        ghFetchGo resp (remaining + 1) attempt
          = ⟨GhResult.success [], attempt + 1, [(status, body)]⟩) := by
  constructor
  · intro resp r a h
    simp [ghFetchGo, h]
  · intro resp r a s b h
    simp [ghFetchGo, h]

/-- Witness for C6: a not-found and a 500 response on the first attempt. -/
theorem ghFetch_notFound_and_other_give_empty_witness :
    ghFetchGo (fun _ => GhResp.notFound) 5 0 = ⟨GhResult.success [], 1, []⟩ ∧
    ghFetchGo (fun _ => GhResp.other 500 "server error") 5 0
      = ⟨GhResult.success [], 1, [(500, "server error")]⟩ :=
  ⟨ghFetch_notFound_and_other_give_empty.1 _ 4 0 rfl,
   ghFetch_notFound_and_other_give_empty.2 _ 4 0 500 "server error" rfl⟩

/-- C7: the resolver output is the direct media children (in listing
order) followed by, for each direct subdirectory in listing order, that
subdirectory's direct media children; every output item originates either
from the target listing or from a subdirectory listing — depth at most
one; concretely the tree root [a.png, sub], sub = [b.png, deep],
deep = [c.png] resolves to [a.png, sub/b.png] and nothing deeper. -/
theorem resolveMedia_one_level_in_order :
    (∀ (net : String → List Entry) (path : String),
        resolveMediaItems net path
          = directItems (net path)
            ++ ((net path).filter (fun i => i.type == EntryType.dir)).flatMap
                (fun d => (net d.path).filterMap (fun s =>
                  if s.type == EntryType.file && isMediaFile s.name then some (mkSubItem s)
                  else none))) ∧
    (∀ (net : String → List Entry) (path : String) (m : MediaItem),
        m ∈ resolveMediaItems net path →
          (∃ e ∈ net path, e.type = EntryType.file ∧ isMediaFile e.name = true ∧
              m = mkDirectItem (net path) e) ∨
          (∃ d ∈ net path, d.type = EntryType.dir ∧
              ∃ s ∈ net d.path, s.type = EntryType.file ∧ isMediaFile s.name = true ∧
                m = mkSubItem s)) ∧
    resolveMediaItems netTree "" = [aPngItem, bPngItem] := by
  refine ⟨?_, ?_, by decide⟩
  · intro net path
    unfold resolveMediaItems subItems
    rw [flatMap_if_filter]
  · intro net path m hm
    unfold resolveMediaItems at hm
    rcases List.mem_append.mp hm with h | h
    · left
      rcases List.mem_filterMap.mp h with ⟨e, he, hfe⟩
      by_cases hc : (e.type == EntryType.file && isMediaFile e.name) = true
      · rw [if_pos hc] at hfe
        simp only [Bool.and_eq_true, beq_iff_eq] at hc
        exact ⟨e, he, hc.1, hc.2, (Option.some.inj hfe).symm⟩
      · rw [if_neg hc] at hfe
        simp at hfe
    · right
      rcases List.mem_flatMap.mp h with ⟨d, hd, hmem⟩
      by_cases hc : (d.type == EntryType.dir) = true
      · rw [if_pos hc] at hmem
        rcases List.mem_filterMap.mp hmem with ⟨s, hs, hfs⟩
        by_cases hcs : (s.type == EntryType.file && isMediaFile s.name) = true
        · rw [if_pos hcs] at hfs
          simp only [Bool.and_eq_true, beq_iff_eq] at hcs
          exact ⟨d, hd, beq_iff_eq.mp hc, s, hs, hcs.1, hcs.2, (Option.some.inj hfs).symm⟩
        · rw [if_neg hcs] at hfs
          simp at hfs
      · rw [if_neg hc] at hmem
        simp at hmem

/-- Witness for C7: the depth-one provenance of `sub/b.png`. -/
theorem resolveMedia_one_level_in_order_witness :
    (∃ e ∈ netTree "", e.type = EntryType.file ∧ isMediaFile e.name = true ∧
        bPngItem = mkDirectItem (netTree "") e) ∨
    (∃ d ∈ netTree "", d.type = EntryType.dir ∧
        ∃ s ∈ netTree d.path, s.type = EntryType.file ∧ isMediaFile s.name = true ∧
          bPngItem = mkSubItem s) :=
  resolveMedia_one_level_in_order.2.1 netTree "" bPngItem (by decide)

/-- C8: when neither the directory nor any of its direct subdirectories
holds a media file, the resolver returns the manifest contents verbatim;
`Option.getD []` also covers a failed manifest load (`none`), which is
swallowed into the empty set. -/
theorem resolveMedia_returns_manifest_when_no_media (net : String → List Entry)
    (manifest : Option (List MediaItem)) (path : String)
    (hdirect : ∀ e ∈ net path, e.type = EntryType.file → isMediaFile e.name = false)
    (hsub : ∀ d ∈ net path, d.type = EntryType.dir →
      ∀ s ∈ net d.path, s.type = EntryType.file → isMediaFile s.name = false) :
    resolveMedia net manifest path = manifest.getD [] := by
  have h1 : directItems (net path) = [] := by
    refine List.filterMap_eq_nil_iff.mpr ?_
    intro e he
    have hc : (e.type == EntryType.file && isMediaFile e.name) = false := by
      by_cases ht : e.type = EntryType.file
      · simp [ht, hdirect e he ht]
      · simp [ht]
    simp [hc]
  have h2 : subItems net (net path) = [] := by
    refine List.flatMap_eq_nil_iff.mpr ?_
    intro d hd
    by_cases ht : d.type = EntryType.dir
    · simp only [ht, beq_self_eq_true, if_true]
      refine List.filterMap_eq_nil_iff.mpr ?_
      intro s hs
      have hc : (s.type == EntryType.file && isMediaFile s.name) = false := by
        by_cases hts : s.type = EntryType.file
        · simp [hts, hsub d hd ht s hs hts]
        · simp [hts]
      simp [hc]
    · simp [ht]
  simp [resolveMedia, resolveMediaItems, h1, h2]

/-- Witness for C8: a tree with no media, with a loaded two-item manifest
and with a failed manifest load. -/
theorem resolveMedia_returns_manifest_when_no_media_witness :
    resolveMedia netNoMedia (some [demoItem1, demoItem2]) "" = [demoItem1, demoItem2] ∧
    resolveMedia netNoMedia none "" = [] :=
  ⟨resolveMedia_returns_manifest_when_no_media netNoMedia (some [demoItem1, demoItem2]) ""
      (by decide) (by decide),
   resolveMedia_returns_manifest_when_no_media netNoMedia none "" (by decide) (by decide)⟩

/-- C4 (counterexample): the root listing (`cat.png`) is already in the
listing cache, yet resolving the root sends a listing request (`netLog`
grows) and derives the media from the network's listing (`dog.mp4`), not
from the cached one. -/
theorem resolveMedia_bypasses_listing_cache :
    List.lookup "" stCached.cache = some [⟨"cat.png", "cat.png", EntryType.file⟩] ∧
    (showMediaForPath netDog none stCached "").netLog = [""] ∧
    List.lookup "" (showMediaForPath netDog none stCached "").mediaCache = some [dogItem] ∧
    [dogItem] ≠ directItems [⟨"cat.png", "cat.png", EntryType.file⟩] := by decide

/-- C4 (amended): `showMediaForPath` never reads or writes the listing
cache: the cache field is unchanged, on a media-cache miss it sends one
listing request for the path plus one per direct subdirectory — regardless
of what the listing cache holds — and on a media-cache hit it sends none. -/
theorem showMediaForPath_never_uses_listing_cache (net : String → List Entry)
    (manifest : Option (List MediaItem)) (st : AppState) (path : String) :
    (showMediaForPath net manifest st path).cache = st.cache ∧
    (List.lookup path st.mediaCache = none →
      (showMediaForPath net manifest st path).netLog
        = st.netLog ++ path ::
            (((net path).filter (fun i => i.type == EntryType.dir)).map (fun i => i.path))) ∧
    (∀ m, List.lookup path st.mediaCache = some m →
      (showMediaForPath net manifest st path).netLog = st.netLog) := by
  cases h : List.lookup path st.mediaCache <;> simp [showMediaForPath, h]

/-- Witness for C4: the amended statement at the cached-root state. -/
theorem showMediaForPath_never_uses_listing_cache_witness :
    (showMediaForPath netDog none stCached "").cache = stCached.cache ∧
    (showMediaForPath netDog none stCached "").netLog
      = stCached.netLog ++ "" ::
          (((netDog "").filter (fun i => i.type == EntryType.dir)).map (fun i => i.path)) :=
  ⟨(showMediaForPath_never_uses_listing_cache netDog none stCached "").1,
   (showMediaForPath_never_uses_listing_cache netDog none stCached "").2.1 rfl⟩

end MediaSite
